import Mathlib

/-!
Shallow embedding of `src/packages/workbox-core/src/_private/DBWrapper.ts`.

The source wraps IndexedDB in a promise-based API.  Its behaviour is
event-driven: native callbacks (`onsuccess`, `onerror`, `onupgradeneeded`,
`onabort`, `oncomplete`, timer callbacks) fire in some order and act on a
one-shot ES promise.  We embed each promise-producing routine as a fold of a
step function over an explicit event trace, so that every interleaving of
callback deliveries is a concrete input.  Opaque runtime data (connection
handles, stored values, error objects) is modelled by natural-number codes.
-/

namespace DBWrapper

/-- The state of an ES2015 promise: a one-shot cell.  `resolve` and `reject`
settle the cell only when it is still pending; later calls are no-ops
(ES2015 PromiseCapability semantics, which the source relies on). -/
inductive PState (α : Type) (ε : Type) : Type where
  | pending : PState α ε
  | resolved (v : α) : PState α ε
  | rejected (e : ε) : PState α ε
deriving DecidableEq

/-- A call to the promise capability resolve function: settles only from pending. -/
def resolveP {α ε : Type} (s : PState α ε) (v : α) : PState α ε :=
  match s with
  | .pending => .resolved v
  | s => s

/-- A call to the promise capability reject function: settles only from pending. -/
def rejectP {α ε : Type} (s : PState α ε) (e : ε) : PState α ε :=
  match s with
  | .pending => .rejected e
  | s => s

/-! ### ConnectionManager: `DBWrapper.open` (source lines 90-127)

The executor of the inner promise registers a timer callback (which sets
`openRequestTimedOut` and rejects with the distinguished timeout error),
issues `indexedDB.open`, and wires `onerror`, `onupgradeneeded`, `onsuccess`.
We embed the executor closure state and fold it over the trace of callback
firings. -/

/-- Errors with which `open()` can reject: the distinguished timeout error
(line 102, `new Error('The open request was blocked and timed out')`) or the
native `openRequest.error` (line 106), an opaque code. -/
inductive OpenError : Type where
  | timeout : OpenError
  | native (code : Nat) : OpenError
deriving DecidableEq

/-- Callback firings that can reach the `open()` executor: the timer
(line 100), `onsuccess` carrying `openRequest.result` (line 115), `onerror`
carrying `openRequest.error` (line 106), and `onupgradeneeded` carrying the
current `openRequest.result` (line 107). -/
inductive OpenEvent : Type where
  | timeoutFires : OpenEvent
  | success (conn : Nat) : OpenEvent
  | error (code : Nat) : OpenEvent
  | upgradeNeeded (conn : Nat) : OpenEvent
deriving DecidableEq

/-- The closure state of the `open()` executor: the `openRequestTimedOut`
flag (line 99), the inner promise, the list of connection handles on which
`close()` was called defensively (lines 110 and 118), and counters for the
upgrade branches (callback invocation line 112, abort line 109). -/
structure OpenReqState : Type where
  timedOut : Bool
  promise : PState Nat OpenError
  closedConns : List Nat
  upgradeCallbackRuns : Nat
  abortedUpgradeTxns : Nat
deriving DecidableEq

/-- Executor state before any callback fires. -/
def openInit : OpenReqState :=
  { timedOut := false, promise := .pending, closedConns := [],
    upgradeCallbackRuns := 0, abortedUpgradeTxns := 0 }

/-- One callback firing of the `open()` executor (source lines 99-123):
the timer sets the flag and rejects with the timeout error; `onerror`
rejects with the native error; `onupgradeneeded` aborts the upgrade
transaction and closes the handle when already timed out, else runs the
caller-supplied upgrade callback; `onsuccess` closes the new connection when
already timed out, else resolves with it. -/
def openStep (s : OpenReqState) : OpenEvent → OpenReqState
  | .timeoutFires =>
      { s with timedOut := true, promise := rejectP s.promise .timeout }
  | .success conn =>
      if s.timedOut then
        { s with closedConns := conn :: s.closedConns }
      else
        { s with promise := resolveP s.promise conn }
  | .error code =>
      { s with promise := rejectP s.promise (.native code) }
  | .upgradeNeeded conn =>
      if s.timedOut then
        { s with abortedUpgradeTxns := s.abortedUpgradeTxns + 1,
                 closedConns := conn :: s.closedConns }
      else
        { s with upgradeCallbackRuns := s.upgradeCallbackRuns + 1 }

/-- The value with which the promise returned by `open()` itself fulfills:
`return this` (the wrapper, line 126) after a successful inner await, or
`return;` (undefined, line 91) when a connection is already held. -/
inductive OpenRet : Type where
  | wrapper : OpenRet
  | undef : OpenRet
deriving DecidableEq

/-- Observable outcome of one `open()` call. -/
structure OpenResult : Type where
  /-- whether `indexedDB.open` was invoked (line 105) -/
  nativeOpenIssued : Bool
  /-- the caller-visible promise of `open()` (pending when the inner promise
  never settles) -/
  outcome : PState OpenRet OpenError
  /-- the wrapper field `this._db` after the call -/
  db : Option Nat
  /-- connection handles defensively closed inside the executor -/
  closedConns : List Nat
deriving DecidableEq

/-- Embedding of `DBWrapper.open` (lines 90-127): with `db` the current
`this._db` and `events` the trace of executor callback firings.  If `_db` is
set, return immediately with undefined and no native open (line 91).
Otherwise run the executor; a resolved inner promise is awaited into
`this._db` and `open()` fulfills with `this`; a rejected inner promise makes
`open()` reject with the same error before the assignment. -/
def openCall (db : Option Nat) (events : List OpenEvent) : OpenResult :=
  match db with
  | some conn =>
      { nativeOpenIssued := false, outcome := .resolved .undef,
        db := some conn, closedConns := [] }
  | none =>
      let s := events.foldl openStep openInit
      { nativeOpenIssued := true,
        outcome :=
          match s.promise with
          | .pending => .pending
          | .resolved _ => .resolved .wrapper
          | .rejected e => .rejected e,
        db :=
          match s.promise with
          | .resolved conn => some conn
          | _ => none,
        closedConns := s.closedConns }

/-- Embedding of `DBWrapper.close` (lines 291-297): if a connection is held,
close it (returned in the second component) and null the field; otherwise do
nothing. -/
def close (db : Option Nat) : Option Nat × List Nat :=
  match db with
  | some conn => (none, [conn])
  | none => (none, [])

/-! ### TransactionRunner: `DBWrapper.transaction` (source lines 237-250)

The executor creates the native transaction, registers
`txn.onabort = () => reject(txn.error)` and `txn.oncomplete = () => resolve()`,
then invokes `callback(txn, done)` where `done = (value) => resolve(value)`.
`resolve()` with no argument fulfills with undefined, which we model as
`Option.none`; values passed to `done` are opaque codes.  Because
`callback(txn, done)` runs inside the Promise executor, a synchronous
exception thrown by it is caught by the ES2015 Promise constructor, which
calls the reject function with the thrown value (SpecRef: GetCapabilities /
Promise(executor) step: if executor throws, reject with the abrupt
completion).  We therefore model four kinds of settle-relevant events. -/

/-- Settle-relevant events of one `transaction()` run, in delivery order:
a call to `done(value)` from inside the body or from an async request
callback it registered; the native `oncomplete`; the native `onabort`
carrying `txn.error`; and a synchronous exception escaping the body into the
Promise executor. -/
inductive TxnEvent : Type where
  | doneCall (v : Option Nat) : TxnEvent
  | complete : TxnEvent
  | abort (e : Nat) : TxnEvent
  | bodyThrow (e : Nat) : TxnEvent
deriving DecidableEq

/-- Effect of one event on the caller-visible promise of `transaction()`:
`done(v)` resolves with `v` (line 248), `oncomplete` resolves with undefined
(line 246), `onabort` rejects with `txn.error` (line 245), and a synchronous
body throw is converted into a rejection by the Promise constructor. -/
def txnApply (s : PState (Option Nat) Nat) : TxnEvent → PState (Option Nat) Nat
  | .doneCall v => resolveP s v
  | .complete => resolveP s none
  | .abort e => rejectP s e
  | .bodyThrow e => rejectP s e

/-- Embedding of `DBWrapper.transaction` (lines 237-250): the caller-visible
promise after the events of one run have been delivered in order. -/
def transactionRun (events : List TxnEvent) : PState (Option Nat) Nat :=
  events.foldl txnApply .pending

/-! ### CursorEnumerator: `DBWrapper.getAllMatching` (source lines 191-218)

The cursor `onsuccess` handler (lines 204-216) pushes the cursor (when
`includeKeys`) or its value, then either calls `done(results)` when `count`
is truthy and reached, advances the cursor with `cursor.continue()`, or, on
a null cursor (exhaustion), calls `done(results)`. -/

/-- One record reachable by the cursor: key, primary key, value, all opaque
codes. -/
structure CursorEntry : Type where
  key : Nat
  primaryKey : Nat
  value : Nat
deriving DecidableEq

/-- What line 207 pushes: the cursor object itself when `includeKeys`, else
`cursor.value`. -/
inductive ScanItem : Type where
  | entry (e : CursorEntry) : ScanItem
  | value (v : Nat) : ScanItem
deriving DecidableEq

/-- `includeKeys ? cursor : cursor.value` (line 207). -/
def mkItem (includeKeys : Bool) (e : CursorEntry) : ScanItem :=
  if includeKeys then .entry e else .value e.value

/-- The guard `count && results.length >= count` (line 208).  `count` of 0 or
undefined is falsy in JS, so only a positive `count` can stop the scan
early. -/
def reachedCount (count : Option Nat) (len : Nat) : Bool :=
  match count with
  | some n => decide (n ≠ 0) && decide (len ≥ n)
  | none => false

/-- The cursor walk of `getAllMatching` run to completion with no
interference (lines 204-216), as a recursion over the entries the cursor
would deliver in order (the store contents already filtered by query and
ordered by direction, which the engine owns).  Returns the accumulator
passed to `done` and the number of `cursor.continue()` calls (advances). -/
def scanLoop (count : Option Nat) (includeKeys : Bool) :
    List CursorEntry → List ScanItem → List ScanItem × Nat
  | [], results => (results, 0)
  | e :: rest, results =>
      if reachedCount count (results ++ [mkItem includeKeys e]).length then
        (results ++ [mkItem includeKeys e], 0)
      else
        ((scanLoop count includeKeys rest (results ++ [mkItem includeKeys e])).1,
         (scanLoop count includeKeys rest (results ++ [mkItem includeKeys e])).2 + 1)

/-- Embedding of the result of `DBWrapper.getAllMatching` (lines 191-218) in
an undisturbed run: the accumulator handed to `done` and the number of
cursor advances, starting from the empty `results` array (line 201). -/
def getAllMatching (entries : List CursorEntry) (count : Option Nat)
    (includeKeys : Bool) : List ScanItem × Nat :=
  scanLoop count includeKeys entries []

/-- `entry.key` projection used by `getAllKeys` (line 171); on a raw value
(not produced under `includeKeys`) the property read would yield undefined,
modelled as `none`. -/
def itemKey : ScanItem → Option Nat
  | .entry e => some e.key
  | .value _ => none

/-- Embedding of the polyfill `DBWrapper.getAllKeys` (lines 167-172):
`getAllMatching` with `includeKeys: true`, then map each entry to its key. -/
def getAllKeys (entries : List CursorEntry) (count : Option Nat) :
    List (Option Nat) :=
  ((getAllMatching entries count true).1).map itemKey

/-- Embedding of the polyfill `DBWrapper.getKey` (lines 138-140): the first
element of `getAllKeys` with count 1 (undefined when empty). -/
def getKey (entries : List CursorEntry) : Option (Option Nat) :=
  (getAllKeys entries (some 1)).head?

/-- Embedding of the polyfill `DBWrapper.getAll` (lines 152-154):
`getAllMatching` with default `includeKeys: false`. -/
def getAll (entries : List CursorEntry) (count : Option Nat) :
    List ScanItem :=
  (getAllMatching entries count false).1

/-! ### Cursor scan interleaved with engine events

To reason about an engine-level abort arriving mid-scan, we embed the same
`onsuccess` handler as a step function over a trace that interleaves cursor
success deliveries with the transaction's `onabort`/`oncomplete`.  After
`done` has been called the handler did not call `cursor.continue()`, so no
further success events are delivered; after an abort the engine delivers
none either — both are modelled by the guard in the step function. -/

/-- State of one `getAllMatching` call mid-flight: the entries the cursor
has not yet delivered, the `results` array, the number of advances, the
caller-visible promise of the enclosing `transaction()`, and whether the
transaction was aborted. -/
structure ScanState : Type where
  remaining : List CursorEntry
  results : List ScanItem
  advances : Nat
  promise : PState (Option (List ScanItem)) Nat
  aborted : Bool
deriving DecidableEq

/-- Events of one scan run: a cursor `onsuccess` delivery (carrying the next
entry or exhaustion, tracked in the state), the transaction's `onabort`
with `txn.error`, and the transaction's `oncomplete`. -/
inductive ScanEvent : Type where
  | cursorSuccess : ScanEvent
  | txnAbort (e : Nat) : ScanEvent
  | txnComplete : ScanEvent
deriving DecidableEq

/-- One event of a scan run.  `cursorSuccess` embeds lines 204-216: when the
scan is still live, push the item, then stop with `done(results)` if the
count is reached, advance otherwise, or `done(results)` on exhaustion.
`txnAbort` embeds line 245, `txnComplete` line 246, both through the
one-shot promise. -/
def scanStep (count : Option Nat) (includeKeys : Bool) (s : ScanState) :
    ScanEvent → ScanState
  | .cursorSuccess =>
      if s.aborted then s
      else
        match s.promise with
        | .pending =>
            match s.remaining with
            | [] => { s with promise := resolveP s.promise (some s.results) }
            | e :: rest =>
                let results := s.results ++ [mkItem includeKeys e]
                if reachedCount count results.length then
                  { s with remaining := rest, results := results,
                           promise := resolveP s.promise (some results) }
                else
                  { s with remaining := rest, results := results,
                           advances := s.advances + 1 }
        | _ => s
  | .txnAbort e =>
      { s with aborted := true, promise := rejectP s.promise e }
  | .txnComplete =>
      { s with promise := resolveP s.promise none }

/-- Initial state of a scan over the given entries (empty `results`,
line 201). -/
def scanInit (entries : List CursorEntry) : ScanState :=
  { remaining := entries, results := [], advances := 0,
    promise := .pending, aborted := false }

/-- A scan run: fold the step function over the event trace. -/
def scanRun (count : Option Nat) (includeKeys : Bool)
    (entries : List CursorEntry) (events : List ScanEvent) : ScanState :=
  events.foldl (scanStep count includeKeys) (scanInit entries)

/-! ### MethodDelegator: the wrap loop (source lines 304-323)

`methodsToWrap` lists the read-only and read-write method names; the loop
installs `DBWrapper.prototype[method]` only `if (method in
IDBObjectStore.prototype)`, each installed method delegating to
`_call(method, storeName, mode, ...args)` which runs
`transaction([storeName], mode, ...)`.  Before the loop the class itself
defines only the three cursor polyfills `getKey`, `getAll`, `getAllKeys`
(lines 138-172); `get`, `count`, `add`, `put`, `clear`, `delete` are bare
TypeScript field declarations (lines 45-50) that emit no implementation. -/

/-- The nine IDBObjectStore method names handled by the wrapper
(lines 12-13). -/
inductive IDBMethod : Type where
  | get | count | getKey | getAll | getAllKeys
  | add | put | clear | delete
deriving DecidableEq

/-- Transaction modes (line 232). -/
inductive TxnMode : Type where
  | readonly | readwrite
deriving DecidableEq

/-- The `methodsToWrap` table (lines 305-308). -/
def methodsToWrap : TxnMode → List IDBMethod
  | .readonly => [.get, .count, .getKey, .getAll, .getAllKeys]
  | .readwrite => [.add, .put, .clear, .delete]

/-- The mode under which the wrap loop installs a method: the key of the
`methodsToWrap` entry whose list contains it. -/
def modeOfMethod (m : IDBMethod) : TxnMode :=
  if m ∈ methodsToWrap .readwrite then .readwrite else .readonly

/-- An implementation reachable on the prototype: a wrapped native call via
`_call` in a fixed mode, or one of the class-defined cursor polyfills. -/
inductive MethodImpl : Type where
  | nativeWrapped (mode : TxnMode) : MethodImpl
  | cursorPolyfill : MethodImpl
deriving DecidableEq

/-- The implementations the class itself defines before the wrap loop runs:
only the polyfills `getKey` (line 138), `getAll` (line 152) and `getAllKeys`
(line 167).  The bare field declarations for `get`, `count`, `add`, `put`,
`clear`, `delete` (lines 45-50) emit no implementation. -/
def classPrototype : IDBMethod → Option MethodImpl
  | .getKey => some .cursorPolyfill
  | .getAll => some .cursorPolyfill
  | .getAllKeys => some .cursorPolyfill
  | _ => none

/-- The prototype after the wrap loop (lines 309-323), given which methods
the platform's `IDBObjectStore.prototype` supports natively: a supported
method is overridden by the `_call` wrapper in its table mode; an
unsupported one keeps whatever the class defined (possibly nothing). -/
def prototypeAfterWrap (native : IDBMethod → Bool) (m : IDBMethod) :
    Option MethodImpl :=
  if native m then some (.nativeWrapped (modeOfMethod m))
  else classPrototype m

/-- The transaction mode in which invoking method `m` on the wrapper
actually runs, if the method exists at all: a `_call` wrapper passes its
table mode to `transaction` (line 275); each cursor polyfill bottoms out in
`getAllMatching`, which opens its transaction with the literal `'readonly'`
(line 198). -/
def invocationMode (native : IDBMethod → Bool) (m : IDBMethod) :
    Option TxnMode :=
  match prototypeAfterWrap native m with
  | some (.nativeWrapped mode) => some mode
  | some .cursorPolyfill => some .readonly
  | none => none

/-! ### Shared lemmas -/

/-- A settled promise ignores further resolve calls. -/
theorem resolveP_of_ne_pending {α ε : Type} {s : PState α ε}
    (h : s ≠ .pending) (v : α) : resolveP s v = s := by
  cases s with
  | pending => exact absurd rfl h
  | resolved _ => rfl
  | rejected _ => rfl

/-- A settled promise ignores further reject calls. -/
theorem rejectP_of_ne_pending {α ε : Type} {s : PState α ε}
    (h : s ≠ .pending) (e : ε) : rejectP s e = s := by
  cases s with
  | pending => exact absurd rfl h
  | resolved _ => rfl
  | rejected _ => rfl

/-- Once `openRequestTimedOut` is set, no later callback clears it. -/
theorem openStep_timedOut_mono (s : OpenReqState) (ev : OpenEvent)
    (h : s.timedOut = true) : (openStep s ev).timedOut = true := by
  cases ev <;> simp [openStep, h]

/-- Once the inner open promise is rejected with the timeout error and the
flag is set, every later callback leaves the promise rejected with the
timeout error. -/
theorem openStep_keeps_timeout_rejection (s : OpenReqState) (ev : OpenEvent)
    (ht : s.timedOut = true) (hp : s.promise = .rejected .timeout) :
    (openStep s ev).promise = .rejected .timeout := by
  cases ev <;> simp [openStep, ht, hp, rejectP]

/-- The timed-out-and-rejected configuration is invariant under any suffix
of the callback trace. -/
theorem foldl_openStep_timeout_inv (evs : List OpenEvent) (s : OpenReqState)
    (ht : s.timedOut = true) (hp : s.promise = .rejected .timeout) :
    (evs.foldl openStep s).timedOut = true ∧
    (evs.foldl openStep s).promise = .rejected .timeout := by
  induction evs generalizing s with
  | nil => exact ⟨ht, hp⟩
  | cons ev evs ih =>
      exact ih (openStep s ev) (openStep_timedOut_mono s ev ht)
        (openStep_keeps_timeout_rejection s ev ht hp)

/-- A connection recorded as closed stays recorded under any later
callback. -/
theorem foldl_openStep_closed_mono (evs : List OpenEvent) (s : OpenReqState)
    (c : Nat) (h : c ∈ s.closedConns) :
    c ∈ (evs.foldl openStep s).closedConns := by
  induction evs generalizing s with
  | nil => exact h
  | cons ev evs ih =>
      refine ih (openStep s ev) ?_
      cases ev with
      | timeoutFires => exact h
      | success conn =>
          by_cases ht : s.timedOut <;> simp [openStep, ht, h]
      | error code => exact h
      | upgradeNeeded conn =>
          by_cases ht : s.timedOut <;> simp [openStep, ht, h]

/-- After the timeout flag is set, the connection produced by any later
`onsuccess` is closed. -/
theorem foldl_openStep_success_closed (evs : List OpenEvent)
    (s : OpenReqState) (c : Nat) (ht : s.timedOut = true)
    (hmem : OpenEvent.success c ∈ evs) :
    c ∈ (evs.foldl openStep s).closedConns := by
  induction evs generalizing s with
  | nil => cases hmem
  | cons ev evs ih =>
      rcases List.mem_cons.mp hmem with heq | htail
      · subst heq
        refine foldl_openStep_closed_mono evs _ c ?_
        simp [openStep, ht]
      · exact ih (openStep s ev) (openStep_timedOut_mono s ev ht) htail

/-- A settled transaction promise ignores every later event. -/
theorem txnApply_settled (s : PState (Option Nat) Nat) (ev : TxnEvent)
    (h : s ≠ .pending) : txnApply s ev = s := by
  cases ev <;>
    simp [txnApply, resolveP_of_ne_pending h, rejectP_of_ne_pending h]

/-- A settled transaction promise is a fixed point of any event suffix. -/
theorem foldl_txnApply_settled (evs : List TxnEvent)
    (s : PState (Option Nat) Nat) (h : s ≠ .pending) :
    evs.foldl txnApply s = s := by
  induction evs with
  | nil => rfl
  | cons ev evs ih => rw [List.foldl_cons, txnApply_settled s ev h, ih]

/-- Once the scan's enclosing promise is settled, no later scan event
changes it. -/
theorem scanStep_settled (count : Option Nat) (includeKeys : Bool)
    (s : ScanState) (ev : ScanEvent) (h : s.promise ≠ .pending) :
    (scanStep count includeKeys s ev).promise = s.promise := by
  cases ev with
  | cursorSuccess =>
      by_cases ha : s.aborted
      · simp [scanStep, ha]
      · cases hp : s.promise with
        | pending => exact absurd hp h
        | resolved v => simp [scanStep, ha, hp]
        | rejected e => simp [scanStep, ha, hp]
  | txnAbort e => simp [scanStep, rejectP_of_ne_pending h]
  | txnComplete => simp [scanStep, resolveP_of_ne_pending h]

/-- A settled scan promise survives any event suffix. -/
theorem foldl_scanStep_settled (count : Option Nat) (includeKeys : Bool)
    (evs : List ScanEvent) (s : ScanState) (h : s.promise ≠ .pending) :
    (evs.foldl (scanStep count includeKeys) s).promise = s.promise := by
  induction evs generalizing s with
  | nil => rfl
  | cons ev evs ih =>
      rw [List.foldl_cons]
      rw [ih (scanStep count includeKeys s ev)
            (by rw [scanStep_settled count includeKeys s ev h]; exact h)]
      exact scanStep_settled count includeKeys s ev h

/-- Count-bounded runs of the cursor walk: starting below the bound, the
accumulator never exceeds the bound and the number of advances stays below
it. -/
theorem scanLoop_bound (N : Nat) (includeKeys : Bool)
    (entries : List CursorEntry) (acc : List ScanItem)
    (hacc : acc.length < N) :
    (scanLoop (some N) includeKeys entries acc).1.length ≤ N ∧
    (scanLoop (some N) includeKeys entries acc).2 ≤ N - 1 - acc.length := by
  induction entries generalizing acc with
  | nil => exact ⟨Nat.le_of_lt hacc, Nat.zero_le _⟩
  | cons e rest ih =>
      have hlen_eq : (acc ++ [mkItem includeKeys e]).length = acc.length + 1 := by
        simp
      simp only [scanLoop]
      by_cases hr : reachedCount (some N) (acc ++ [mkItem includeKeys e]).length = true
      · rw [if_pos hr]
        constructor
        · rw [hlen_eq]; omega
        · exact Nat.zero_le _
      · rw [if_neg hr]
        have hlt : (acc ++ [mkItem includeKeys e]).length < N := by
          simp only [reachedCount, Bool.and_eq_true, decide_eq_true_eq] at hr
          rw [hlen_eq] at hr ⊢
          omega
        have h := ih (acc ++ [mkItem includeKeys e]) hlt
        refine ⟨h.1, ?_⟩
        have h2 := h.2
        rw [hlen_eq] at h2
        omega

/-- The mode recorded in the dispatch always agrees with the
`methodsToWrap` table entry of the method. -/
theorem invocationMode_eq_modeOfMethod (native : IDBMethod → Bool)
    (m : IDBMethod) (md : TxnMode)
    (h : invocationMode native m = some md) : md = modeOfMethod m := by
  unfold invocationMode prototypeAfterWrap at h
  by_cases hn : native m
  · simp [hn] at h
    exact h.symm
  · simp [hn] at h
    cases m <;> simp [classPrototype] at h <;>
      simp [modeOfMethod, methodsToWrap, ← h]

/-! ### Claim theorems -/

/-- C1: when the timer fires before the native open outcome arrives, the
caller's promise rejects with the distinguished timeout error; a native
success arriving afterwards has its connection closed immediately, and the
connection is never stored in `this._db` (nor resolved to any caller, since
the outcome is a rejection). -/
theorem open_timeout_orphans_late_connection (rest : List OpenEvent)
    (c : Nat) (h : OpenEvent.success c ∈ rest) :
    (openCall none (OpenEvent.timeoutFires :: rest)).outcome =
      .rejected .timeout ∧
    c ∈ (openCall none (OpenEvent.timeoutFires :: rest)).closedConns ∧
    (openCall none (OpenEvent.timeoutFires :: rest)).db = none := by
  have hstep : openStep openInit .timeoutFires =
      { timedOut := true, promise := .rejected .timeout, closedConns := [],
        upgradeCallbackRuns := 0, abortedUpgradeTxns := 0 } := rfl
  have hinv := foldl_openStep_timeout_inv rest (openStep openInit .timeoutFires)
    (by rw [hstep]) (by rw [hstep])
  have hclosed := foldl_openStep_success_closed rest
    (openStep openInit .timeoutFires) c (by rw [hstep]) h
  have hfold : (OpenEvent.timeoutFires :: rest).foldl openStep openInit =
      rest.foldl openStep (openStep openInit .timeoutFires) := rfl
  refine ⟨?_, ?_, ?_⟩
  · simp only [openCall, hfold, hinv.2]
  · simp only [openCall, hfold]
    exact hclosed
  · simp only [openCall, hfold, hinv.2]

/-- C1 witness: a concrete trace in which the timer fires first and the
native open then succeeds with connection 5. -/
theorem open_timeout_orphans_late_connection_witness :
    (openCall none [OpenEvent.timeoutFires, OpenEvent.success 5]).outcome =
      .rejected .timeout ∧
    5 ∈ (openCall none
          [OpenEvent.timeoutFires, OpenEvent.success 5]).closedConns ∧
    (openCall none [OpenEvent.timeoutFires, OpenEvent.success 5]).db =
      none :=
  open_timeout_orphans_late_connection [OpenEvent.success 5] 5 (by decide)

/-- C2 counterexample: a body that throws synchronously (and a transaction
that later completes) yields a promise that is rejected with the thrown
value — not one that stays pending forever as the claim states.  The ES2015
Promise constructor catches an exception escaping the executor and rejects
with it. -/
theorem transaction_body_throw_counterexample :
    transactionRun [TxnEvent.bodyThrow 9, TxnEvent.complete] =
      .rejected 9 ∧
    transactionRun [TxnEvent.bodyThrow 9, TxnEvent.complete] ≠
      .pending := by
  exact ⟨rfl, by decide⟩

/-- C2 (amended): when the body throws synchronously before anything has
settled the promise, the promise returned by `transaction()` rejects with
the thrown value (the Promise constructor converts the abrupt completion of
the executor into a rejection); later events cannot change it. -/
theorem transaction_body_throw_rejects (e : Nat) (rest : List TxnEvent) :
    transactionRun (TxnEvent.bodyThrow e :: rest) = .rejected e := by
  unfold transactionRun
  rw [List.foldl_cons]
  exact foldl_txnApply_settled rest _ (by simp [txnApply, rejectP])

/-- C3 counterexample: the first successful `open()` call fulfills with
`this` (the wrapper, line 126), but a second call while a connection is held
returns early with `return;` (line 91) and therefore fulfills with
undefined — not with the value the first call delivered. -/
theorem open_second_call_counterexample :
    (openCall none [OpenEvent.success 7]).outcome = .resolved .wrapper ∧
    (openCall (some 7) []).nativeOpenIssued = false ∧
    (openCall (some 7) []).outcome = .resolved .undef ∧
    OpenRet.undef ≠ OpenRet.wrapper := by
  refine ⟨rfl, rfl, rfl, by decide⟩

/-- C3 (amended): while a connection is held, a further `open()` call issues
no second native open request, leaves the stored connection unchanged, and
fulfills immediately — but with undefined, not with the wrapper reference
that the first successful call delivered. -/
theorem open_when_open_is_noop (c : Nat) (events : List OpenEvent) :
    (openCall (some c) events).nativeOpenIssued = false ∧
    (openCall (some c) events).outcome = .resolved .undef ∧
    (openCall (some c) events).db = some c :=
  ⟨rfl, rfl, rfl⟩

/-- C4 counterexample: on a platform whose store type lacks the native
`get`, the wrap loop installs nothing and the class defines no polyfill, so
the operation is undefined rather than delegating to a cursor-based
emulation. -/
theorem absent_native_get_counterexample :
    prototypeAfterWrap (fun _ => false) IDBMethod.get = none ∧
    invocationMode (fun _ => false) IDBMethod.get = none ∧
    prototypeAfterWrap (fun _ => false) IDBMethod.get ≠
      some MethodImpl.cursorPolyfill := by
  refine ⟨rfl, rfl, by decide⟩

/-- C4 (amended): when a native read primitive is absent, only `getKey`,
`getAll` and `getAllKeys` fall back to the class's cursor-based polyfills;
`get` and `count` have no emulation and are left undefined. -/
theorem absent_native_fallback (native : IDBMethod → Bool) (m : IDBMethod)
    (h : native m = false) :
    (m ∈ [IDBMethod.getKey, IDBMethod.getAll, IDBMethod.getAllKeys] →
      prototypeAfterWrap native m = some .cursorPolyfill) ∧
    (m ∈ [IDBMethod.get, IDBMethod.count] →
      prototypeAfterWrap native m = none) := by
  unfold prototypeAfterWrap
  rw [h]
  simp only [Bool.false_eq_true, if_false]
  cases m <;> simp [classPrototype]

/-- C4 witness: `getKey` absent natively falls back to the cursor
polyfill. -/
theorem absent_native_fallback_witness :
    (IDBMethod.getKey ∈
        [IDBMethod.getKey, IDBMethod.getAll, IDBMethod.getAllKeys] →
      prototypeAfterWrap (fun _ => false) IDBMethod.getKey =
        some .cursorPolyfill) ∧
    (IDBMethod.getKey ∈ [IDBMethod.get, IDBMethod.count] →
      prototypeAfterWrap (fun _ => false) IDBMethod.getKey = none) :=
  absent_native_fallback (fun _ => false) IDBMethod.getKey rfl

/-- C5: the caller-visible promise of `transaction()` settles exactly once:
a `done(v)` delivered first fulfills it with `v` and later events (natural
completion included) cannot change it; a natural completion arriving while
nothing has settled the promise fulfills it with undefined; and any settled
state is a fixed point of every further event. -/
theorem transaction_settles_exactly_once (v : Option Nat)
    (rest pre post : List TxnEvent) (h : transactionRun pre = .pending) :
    transactionRun (TxnEvent.doneCall v :: rest) = .resolved v ∧
    transactionRun (pre ++ TxnEvent.complete :: post) = .resolved none ∧
    (∀ (s : PState (Option Nat) Nat) (ev : TxnEvent),
      s ≠ .pending → txnApply s ev = s) := by
  refine ⟨?_, ?_, txnApply_settled⟩
  · unfold transactionRun
    rw [List.foldl_cons]
    exact foldl_txnApply_settled rest _ (by simp [txnApply, resolveP])
  · unfold transactionRun at h ⊢
    rw [List.foldl_append, h, List.foldl_cons]
    exact foldl_txnApply_settled post _ (by simp [txnApply, resolveP])

/-- C5 witness: concrete traces — `done(3)` then completion fulfills with 3;
completion alone fulfills with undefined. -/
theorem transaction_settles_exactly_once_witness :
    transactionRun [] = .pending ∧
    (transactionRun [TxnEvent.doneCall (some 3), TxnEvent.complete] =
        .resolved (some 3) ∧
      transactionRun ([] ++ TxnEvent.complete :: []) = .resolved none ∧
      (∀ (s : PState (Option Nat) Nat) (ev : TxnEvent),
        s ≠ .pending → txnApply s ev = s)) :=
  ⟨rfl, transaction_settles_exactly_once (some 3) [TxnEvent.complete] [] [] rfl⟩

/-- C6: a scan with a positive count `N` accumulates at most `N` items and
performs at most `N` cursor advances, whatever the store contents. -/
theorem getAllMatching_count_bound (entries : List CursorEntry) (N : Nat)
    (includeKeys : Bool) (hN : 0 < N) :
    (getAllMatching entries (some N) includeKeys).1.length ≤ N ∧
    (getAllMatching entries (some N) includeKeys).2 ≤ N := by
  have h := scanLoop_bound N includeKeys entries [] (by simpa using hN)
  exact ⟨h.1, le_trans h.2 (by omega)⟩

/-- C6 witness: a five-entry store scanned with count 2. -/
theorem getAllMatching_count_bound_witness :
    (getAllMatching
        [⟨1, 1, 10⟩, ⟨2, 2, 20⟩, ⟨3, 3, 30⟩, ⟨4, 4, 40⟩, ⟨5, 5, 50⟩]
        (some 2) false).1.length ≤ 2 ∧
    (getAllMatching
        [⟨1, 1, 10⟩, ⟨2, 2, 20⟩, ⟨3, 3, 30⟩, ⟨4, 4, 40⟩, ⟨5, 5, 50⟩]
        (some 2) false).2 ≤ 2 :=
  getAllMatching_count_bound
    [⟨1, 1, 10⟩, ⟨2, 2, 20⟩, ⟨3, 3, 30⟩, ⟨4, 4, 40⟩, ⟨5, 5, 50⟩] 2 false
    (by decide)

/-- C7: when the transaction aborts at the engine level while the scan's
promise is still pending (its `done` has not run), the scan's outer promise
rejects with the abort reason verbatim and is never fulfilled with any
accumulator. -/
theorem scan_abort_rejects_verbatim (count : Option Nat)
    (includeKeys : Bool) (entries : List CursorEntry)
    (pre post : List ScanEvent) (e : Nat)
    (h : (scanRun count includeKeys entries pre).promise = .pending) :
    (scanRun count includeKeys entries
        (pre ++ ScanEvent.txnAbort e :: post)).promise = .rejected e ∧
    ∀ r, (scanRun count includeKeys entries
        (pre ++ ScanEvent.txnAbort e :: post)).promise ≠ .resolved r := by
  have hmain : (scanRun count includeKeys entries
      (pre ++ ScanEvent.txnAbort e :: post)).promise = .rejected e := by
    unfold scanRun at h ⊢
    rw [List.foldl_append, List.foldl_cons]
    have habort : (scanStep count includeKeys
        (pre.foldl (scanStep count includeKeys) (scanInit entries))
        (ScanEvent.txnAbort e)).promise = .rejected e := by
      simp [scanStep, h, rejectP]
    rw [foldl_scanStep_settled count includeKeys post _
      (by rw [habort]; exact fun hc => PState.noConfusion hc)]
    exact habort
  exact ⟨hmain, fun r hr => by rw [hmain] at hr; exact PState.noConfusion hr⟩

/-- C7 witness: a two-entry store, one cursor step delivered (promise still
pending), then an engine abort with reason 4. -/
theorem scan_abort_rejects_verbatim_witness :
    (scanRun none false [⟨1, 1, 10⟩, ⟨2, 2, 20⟩]
        [ScanEvent.cursorSuccess]).promise = .pending ∧
    ((scanRun none false [⟨1, 1, 10⟩, ⟨2, 2, 20⟩]
        ([ScanEvent.cursorSuccess] ++ ScanEvent.txnAbort 4 :: [])).promise =
      .rejected 4 ∧
     ∀ r, (scanRun none false [⟨1, 1, 10⟩, ⟨2, 2, 20⟩]
        ([ScanEvent.cursorSuccess] ++ ScanEvent.txnAbort 4 :: [])).promise ≠
      .resolved r) :=
  ⟨by decide,
   scan_abort_rejects_verbatim none false [⟨1, 1, 10⟩, ⟨2, 2, 20⟩]
     [ScanEvent.cursorSuccess] [] 4 (by decide)⟩

/-- C8: whatever methods the platform supports natively, every installed
write primitive (`add`, `put`, `clear`, `delete`) runs its transaction in
read-write mode and every installed read primitive (`get`, `count`,
`getKey`, `getAll`, `getAllKeys`, cursor polyfills included) runs its
transaction in read-only mode. -/
theorem invocation_mode_matches_method_kind (native : IDBMethod → Bool)
    (m : IDBMethod) (md : TxnMode)
    (h : invocationMode native m = some md) :
    (m ∈ methodsToWrap .readwrite → md = .readwrite) ∧
    (m ∈ methodsToWrap .readonly → md = .readonly) := by
  have heq := invocationMode_eq_modeOfMethod native m md h
  constructor
  · intro hw
    rw [heq]
    simp [modeOfMethod, hw]
  · intro hr
    rw [heq]
    have : m ∉ methodsToWrap .readwrite := by
      cases m <;> simp_all [methodsToWrap]
    simp [modeOfMethod, this]

/-- C8 witness: on a platform supporting everything natively, `add` runs
read-write. -/
theorem invocation_mode_matches_method_kind_witness :
    (IDBMethod.add ∈ methodsToWrap .readwrite →
      TxnMode.readwrite = .readwrite) ∧
    (IDBMethod.add ∈ methodsToWrap .readonly →
      TxnMode.readwrite = .readonly) :=
  invocation_mode_matches_method_kind (fun _ => true) IDBMethod.add
    .readwrite (by decide)

/-- C9: a `done(v)` delivered before an engine-level abort fulfills the
caller's promise with `v`; the later abort neither rejects it nor replaces
the value. -/
theorem transaction_done_survives_abort (v : Option Nat) (e : Nat)
    (rest : List TxnEvent) :
    transactionRun (TxnEvent.doneCall v :: TxnEvent.abort e :: rest) =
      .resolved v := by
  unfold transactionRun
  rw [List.foldl_cons, List.foldl_cons]
  have h1 : txnApply PState.pending (TxnEvent.doneCall v) = .resolved v := rfl
  rw [h1]
  rw [txnApply_settled _ _ (fun hc => PState.noConfusion hc)]
  exact foldl_txnApply_settled rest _ (fun hc => PState.noConfusion hc)

/-- C10: after `close()` the stored connection is nulled (and the held
handle closed); a subsequent `open()` issues a fresh native open and stores
the newly delivered connection; `close()` with nothing held is a no-op. -/
theorem close_then_reopen (c c' : Nat) :
    (close (some c)).1 = none ∧
    (close (some c)).2 = [c] ∧
    close none = (none, []) ∧
    (openCall (close (some c)).1 [OpenEvent.success c']).nativeOpenIssued =
      true ∧
    (openCall (close (some c)).1 [OpenEvent.success c']).outcome =
      .resolved .wrapper ∧
    (openCall (close (some c)).1 [OpenEvent.success c']).db = some c' :=
  ⟨rfl, rfl, rfl, rfl, rfl, rfl⟩

end DBWrapper
